import Mathlib

/-!
Verification of the PPG streaming firmware (`Embedded System/main.cpp`).

The development shallowly embeds the acquisition / buffering / transmission
pipeline of the firmware: the circular sample buffer, the chunk extractor,
the packetizer / transmitter, the command state machine and the
connection-lifecycle reset.  Machine integers are modelled as `Nat` with
explicit `% 2^w` where the C code wraps (`uint8_t seqNumber`), byte
extraction uses the same shift-and-mask operations as the source, and the
side effects of each routine (serial prints, sensor-collaborator calls,
BLE notifications) are returned explicitly as event lists / packet lists.
-/

namespace PPG

/-! ### User-configurable constants (main.cpp lines 9-13) -/

def SAMPLE_RATE : Nat := 200
def BUFFER_HEADROOM_SECONDS : Nat := 5
def PACKET_PACING_MS : Nat := 3
def BATCH_SIZE : Nat := 16

/-! ### Derived constants (main.cpp lines 19-22)

`RAW_CHUNK_SIZE = (int)(SAMPLE_RATE * CHUNK_SECONDS + 0.5f)` is computed in
single-precision float in the source with `CHUNK_SECONDS = 0.20f`; the
computation `(int)(200 * 0.20f + 0.5f)` is exact in float and truncates to
`40`, which we take as the value of the constant. -/

def BUFFER_SIZE : Nat := SAMPLE_RATE * BUFFER_HEADROOM_SECONDS
def RAW_CHUNK_SIZE : Nat := 40
def CHUNK_SIZE : Nat := (RAW_CHUNK_SIZE / BATCH_SIZE) * BATCH_SIZE
def PACKET_SIZE : Nat := 1 + BATCH_SIZE * 8

/-! ### Debug settings (main.cpp lines 39-42)

`DEBUG_LEVEL` is a build-time configuration constant (set to `DEBUG_NONE`
in the shipped source); the model passes the configured level around as a
parameter `dbg` so that claims quantifying over the verbosity level can be
stated. -/

def DEBUG_NONE : Nat := 0
def DEBUG_INFO : Nat := 1
def DEBUG_VERBOSE : Nat := 2

/-! ### Pipeline state (main.cpp lines 53-68)

The ring buffers are total functions from index to stored value; only the
indices `< BUFFER_SIZE` are ever read or written.  `seqNumber` is the
`uint8_t` sequence counter, kept in `[0, 256)` by wrapping at each
increment. -/

structure PipelineState where
  seqNumber : Nat
  irRingBuffer : Nat → Nat
  redRingBuffer : Nat → Nat
  writeIndex : Nat
  readIndex : Nat
  bufferCount : Nat
  streamingStartTime : Nat
  totalSamplesDuringStream : Nat
  streaming : Bool
  sensorConfigured : Bool

/-- Observable side effects of the pipeline routines: a conditional debug
print (carrying its level), the sensor-configuration collaborator call
(`particleSensor.setup` + `clearFIFO`), the sensor shutdown call, and the
session summary emitted on the serial port by `printStreamingSummary`.
The summary event records the two integer fields printed from pipeline
state: `Samples captured` (= `totalSamplesDuringStream`) and `Chunks sent`
(= `seqNumber`); the remaining fields are float statistics derived from
the wall clock. -/
inductive Event where
  | debugMsg (level : Nat)
  | configure
  | shutdown
  | summary (samplesCaptured chunksSent : Nat)
deriving DecidableEq, Repr

/-- Initial values of the global variables (zero-initialised statics,
`streaming = false`, `sensorConfigured = false`). -/
def initState : PipelineState :=
  { seqNumber := 0
    irRingBuffer := fun _ => 0
    redRingBuffer := fun _ => 0
    writeIndex := 0
    readIndex := 0
    bufferCount := 0
    streamingStartTime := 0
    totalSamplesDuringStream := 0
    streaming := false
    sensorConfigured := false }

/-- Conditional debug printing, `debugPrint` (main.cpp lines 74-81):
prints only when `level <= DEBUG_LEVEL` (the configured level `dbg`). -/
def debugPrint (dbg level : Nat) : List Event :=
  if level ≤ dbg then [Event.debugMsg level] else []

/-- Session summary, `printStreamingSummary` (main.cpp lines 84-101).
Returns early, emitting nothing, when `totalSamplesDuringStream == 0`;
otherwise prints the summary block (unconditionally on the serial port,
independent of the debug level).  The integer fields carried by the event
are `totalSamplesDuringStream` and `seqNumber`. -/
def printStreamingSummary (s : PipelineState) : List Event :=
  if s.totalSamplesDuringStream = 0 then []
  else [Event.summary s.totalSamplesDuringStream s.seqNumber]

/-- Sensor configuration, `configureSensor` (main.cpp lines 117-124):
calls the sensor collaborator (`setup` + `clearFIFO`, the `configure`
event) and sets `sensorConfigured = true`. -/
def configureSensor (dbg : Nat) (s : PipelineState) :
    PipelineState × List Event :=
  ({ s with sensorConfigured := true },
   [Event.configure] ++ debugPrint dbg DEBUG_INFO)

/-- Sensor power-down, `shutdownSensor` (main.cpp lines 126-133): shuts the
sensor down only when it is currently configured. -/
def shutdownSensor (dbg : Nat) (s : PipelineState) :
    PipelineState × List Event :=
  if s.sensorConfigured = true then
    ({ s with sensorConfigured := false },
     [Event.shutdown] ++ debugPrint dbg DEBUG_INFO)
  else (s, [])

/-- Connection-lifecycle reset, `resetStreamingState` (main.cpp lines
150-157): called on every new connection; forces Idle, zeroes the sequence
counter, both buffer indices, the buffer count and the session sample
counter. -/
def resetStreamingState (s : PipelineState) : PipelineState :=
  { s with
    streaming := false
    seqNumber := 0
    writeIndex := 0
    readIndex := 0
    bufferCount := 0
    totalSamplesDuringStream := 0 }

/-- One iteration of the acquisition loop body in `pollSensor` (main.cpp
lines 169-186) for a single (IR, Red) sample read from the sensor FIFO:
when `bufferCount < BUFFER_SIZE` the sample is stored at `writeIndex`,
the write index advances modulo `BUFFER_SIZE` and the count increments;
otherwise the sample is dropped (buffer overflow).  In both cases the
session counter `totalSamplesDuringStream` increments. -/
def pushSample (s : PipelineState) (ir red : Nat) : PipelineState :=
  if s.bufferCount < BUFFER_SIZE then
    { s with
      irRingBuffer := fun j => if j = s.writeIndex then ir else s.irRingBuffer j
      redRingBuffer := fun j => if j = s.writeIndex then red else s.redRingBuffer j
      writeIndex := (s.writeIndex + 1) % BUFFER_SIZE
      bufferCount := s.bufferCount + 1
      totalSamplesDuringStream := s.totalSamplesDuringStream + 1 }
  else
    { s with totalSamplesDuringStream := s.totalSamplesDuringStream + 1 }

/-- Acquisition stage, `pollSensor` (main.cpp lines 169-186): a no-op
returning 0 when not streaming; otherwise drains the given list of
available sensor samples in production order through `pushSample`,
returning the number of samples read. -/
def pollSensor (s : PipelineState) (samples : List (Nat × Nat)) :
    PipelineState × Nat :=
  if s.streaming = false then (s, 0)
  else (samples.foldl (fun t p => pushSample t p.1 p.2) s, samples.length)

/-- The extraction loop of `extractChunk` (main.cpp lines 197-201),
generalised to `n` iterations: reads the sample at `readIndex`, advances
`readIndex` modulo `BUFFER_SIZE`, repeats.  Returns the extracted samples
oldest-first together with the state after the loop. -/
def popLoop : Nat → PipelineState → List (Nat × Nat) × PipelineState
  | 0, s => ([], s)
  | Nat.succ n, s =>
    let sample := (s.irRingBuffer s.readIndex, s.redRingBuffer s.readIndex)
    let s1 := { s with readIndex := (s.readIndex + 1) % BUFFER_SIZE }
    let r := popLoop n s1
    (sample :: r.1, r.2)

/-- All-or-nothing extraction of the `n` oldest samples (`pop_n` of the
spec; `extractChunk` instantiates `n = CHUNK_SIZE`, main.cpp lines
194-205).  When `bufferCount < n` it fails immediately — returning
`false`, no samples, and the state untouched; otherwise it runs the
extraction loop and decrements `bufferCount` by `n`. -/
def popN (n : Nat) (s : PipelineState) :
    Bool × List (Nat × Nat) × PipelineState :=
  if s.bufferCount < n then (false, [], s)
  else
    let r := popLoop n s
    (true, r.1, { r.2 with bufferCount := s.bufferCount - n })

/-- Chunk extractor, `extractChunk` (main.cpp lines 194-205): moves the
oldest `CHUNK_SIZE` samples out of the ring buffer. -/
def extractChunk (s : PipelineState) : Bool × List (Nat × Nat) × PipelineState :=
  popN CHUNK_SIZE s

/-- Big-endian packing of one 32-bit value into four bytes, exactly the
shift-and-mask sequence of main.cpp lines 222-229. -/
def encodeBE4 (v : Nat) : List Nat :=
  [v >>> 24 &&& 255, v >>> 16 &&& 255, v >>> 8 &&& 255, v &&& 255]

/-- Frame construction of `transmitChunk` (main.cpp lines 213-231): packet
`p` holds the sequence byte followed by, for each of the `BATCH_SIZE`
samples `p * BATCH_SIZE + k` of the chunk in order, IR then Red as four
big-endian bytes each. -/
def buildPacket (seq : Nat) (chunk : List (Nat × Nat)) (p : Nat) : List Nat :=
  seq :: (List.range BATCH_SIZE).flatMap fun k =>
    encodeBE4 (chunk.getD (p * BATCH_SIZE + k) (0, 0)).1 ++
      encodeBE4 (chunk.getD (p * BATCH_SIZE + k) (0, 0)).2

/-- The full list of frames produced for one chunk (the packet loop of
main.cpp lines 213-234): `CHUNK_SIZE / BATCH_SIZE` packets sharing one
sequence byte. -/
def encodeFrames (seq : Nat) (chunk : List (Nat × Nat)) : List (List Nat) :=
  (List.range (CHUNK_SIZE / BATCH_SIZE)).map (buildPacket seq chunk)

/-- Packetizer / transmitter, `transmitChunk` (main.cpp lines 207-235):
extracts one chunk (returning `false` and sending nothing when fewer than
`CHUNK_SIZE` samples are buffered), increments the 8-bit sequence counter
once (wrapping at 256), and emits the chunk's frames, every frame carrying
the incremented sequence value in byte 0. -/
def transmitChunk (s : PipelineState) :
    Bool × PipelineState × List (List Nat) :=
  let r := extractChunk s
  if r.1 = false then (false, s, [])
  else
    let seq := (r.2.2.seqNumber + 1) % 256
    (true, { r.2.2 with seqNumber := seq }, encodeFrames seq r.2.1)

/-- Command state machine, the body of `handleCommands` after the
`commandChar.written()` check (main.cpp lines 249-269), for a received
command byte `cmd` at wall-clock time `now`.  `'S'` while Idle configures
the sensor when not yet configured, starts streaming and records the
session start time; `'P'` (in any state — the source has no streaming
guard on this branch) stops streaming and runs `printStreamingSummary`;
everything else falls through returning `false`.  Returns the new state,
the emitted events and the C `bool` return value. -/
def handleCommand (dbg : Nat) (s : PipelineState) (now : Nat) (cmd : Char) :
    PipelineState × List Event × Bool :=
  if cmd = 'S' ∧ s.streaming = false then
    let e1 := debugPrint dbg DEBUG_INFO
    let r := if s.sensorConfigured = false then configureSensor dbg s else (s, [])
    ({ r.1 with streaming := true, streamingStartTime := now },
     e1 ++ r.2, true)
  else if cmd = 'P' then
    let e1 := debugPrint dbg DEBUG_INFO
    let s1 := { s with streaming := false }
    (s1, e1 ++ printStreamingSummary s1, true)
  else (s, [], false)

/-- Disconnect cleanup, `handleDisconnect` (main.cpp lines 275-282):
final summary, full streaming-state reset, sensor power-down,
re-advertise. -/
def handleDisconnect (dbg : Nat) (s : PipelineState) :
    PipelineState × List Event :=
  let e1 := printStreamingSummary s
  let s1 := resetStreamingState s
  let r := shutdownSensor dbg s1
  (r.1, e1 ++ r.2 ++ debugPrint dbg DEBUG_INFO)

/-! ### Per-connection traces

One iteration of the connection loop (main.cpp lines 300-305) runs
`handleCommands`, `pollSensor` and `transmitChunk` in sequence; a trace
interleaves these steps arbitrarily.  Each step records the frame groups
notified on the data characteristic (one group per successfully
transmitted chunk) and the serial / collaborator events. -/

inductive SysOp where
  | cmd (c : Char) (now : Nat)
  | poll (samples : List (Nat × Nat))
  | transmit
deriving Repr

/-- Effect of one pipeline step on the state, the transmitted frame
groups and the emitted events. -/
def sysStep (dbg : Nat) (s : PipelineState) :
    SysOp → PipelineState × List (List (List Nat)) × List Event
  | SysOp.cmd c now =>
    let r := handleCommand dbg s now c
    (r.1, [], r.2.1)
  | SysOp.poll samples => ((pollSensor s samples).1, [], [])
  | SysOp.transmit =>
    let r := transmitChunk s
    (r.2.1, if r.1 = true then [r.2.2] else [], [])

/-- Run a list of pipeline steps, concatenating frame groups and events in
emission order. -/
def runSys (dbg : Nat) (s : PipelineState) :
    List SysOp → PipelineState × List (List (List Nat)) × List Event
  | [] => (s, [], [])
  | op :: rest =>
    let r1 := sysStep dbg s op
    let r2 := runSys dbg r1.1 rest
    (r2.1, r1.2.1 ++ r2.2.1, r1.2.2 ++ r2.2.2)

/-! ### Buffer abstraction -/

/-- The abstract FIFO content of the ring buffer: the `bufferCount`
samples starting at `readIndex`, oldest first. -/
def queueOf (s : PipelineState) : List (Nat × Nat) :=
  (List.range s.bufferCount).map fun i =>
    (s.irRingBuffer ((s.readIndex + i) % BUFFER_SIZE),
     s.redRingBuffer ((s.readIndex + i) % BUFFER_SIZE))

/-- Structural buffer invariant: indices in range, count bounded by
capacity, and the write index one past the newest sample. -/
def BufInv (s : PipelineState) : Prop :=
  s.readIndex < BUFFER_SIZE ∧ s.bufferCount ≤ BUFFER_SIZE ∧
    s.writeIndex = (s.readIndex + s.bufferCount) % BUFFER_SIZE

instance (s : PipelineState) : Decidable (BufInv s) := by
  unfold BufInv; infer_instance

/-! ### Buffer-only operation traces (for the FIFO property) -/

inductive BufOp where
  | push (ir red : Nat)
  | popn (n : Nat)
deriving Repr

/-- Run buffer operations, concatenating the successfully extracted
samples in extraction order. -/
def runBuf (s : PipelineState) : List BufOp → PipelineState × List (Nat × Nat)
  | [] => (s, [])
  | BufOp.push a b :: rest => runBuf (pushSample s a b) rest
  | BufOp.popn n :: rest =>
    let r := popN n s
    let r2 := runBuf r.2.2 rest
    (r2.1, r.2.1 ++ r2.2)

/-- A trace is admissible when no push ever meets a full buffer and every
extraction finds enough samples (the hypotheses of the FIFO claim). -/
def admissible (s : PipelineState) : List BufOp → Bool
  | [] => true
  | BufOp.push a b :: rest =>
    decide (s.bufferCount < BUFFER_SIZE) && admissible (pushSample s a b) rest
  | BufOp.popn n :: rest =>
    decide (n ≤ s.bufferCount) && admissible (popN n s).2.2 rest

/-- The samples pushed by a trace, in production order. -/
def pushedOf : List BufOp → List (Nat × Nat)
  | [] => []
  | BufOp.push a b :: rest => (a, b) :: pushedOf rest
  | BufOp.popn _ :: rest => pushedOf rest

/-! ### Host-side decoding -/

/-- Modelled from the spec: the host-side decoder is not part of this
repository (only the firmware encoder is, main.cpp lines 222-229); per the
spec's frame layout, each 32-bit value is reconstructed from its four
big-endian bytes, most-significant first. -/
def decodeBE4 (bs : List Nat) : Nat :=
  bs.foldl (fun acc b => acc * 256 + b) 0

/-- Modelled from the spec: the payload bytes of a frame are parsed in
groups of eight — four big-endian IR bytes then four big-endian Red bytes
per sample, in order. -/
def decodeSamples : List Nat → List (Nat × Nat)
  | b0 :: b1 :: b2 :: b3 :: b4 :: b5 :: b6 :: b7 :: rest =>
    (decodeBE4 [b0, b1, b2, b3], decodeBE4 [b4, b5, b6, b7]) ::
      decodeSamples rest
  | _ => []

/-- Modelled from the spec: decoding a list of frames drops each frame's
leading sequence byte and concatenates the decoded samples in frame
order. -/
def decodeFrames (frames : List (List Nat)) : List (Nat × Nat) :=
  frames.flatMap fun f => decodeSamples f.tail

/-! ### Reachable pipeline states -/

/-- States reachable from power-on through the pipeline operations. -/
inductive Reachable : PipelineState → Prop where
  | init : Reachable initState
  | reset {s} : Reachable s → Reachable (resetStreamingState s)
  | push {s} (ir red : Nat) : Reachable s → Reachable (pushSample s ir red)
  | poll {s} (samples : List (Nat × Nat)) : Reachable s →
      Reachable (pollSensor s samples).1
  | pop {s} (n : Nat) : Reachable s → Reachable (popN n s).2.2
  | transmit {s} : Reachable s → Reachable (transmitChunk s).2.1
  | cmd {s} (dbg now : Nat) (c : Char) : Reachable s →
      Reachable (handleCommand dbg s now c).1
  | disconnect {s} (dbg : Nat) : Reachable s →
      Reachable (handleDisconnect dbg s).1

/-- An Idle state with the sensor already configured and four samples
already captured in this connection (exercises the no-reconfigure path). -/
def c6idleState : PipelineState :=
  { initState with sensorConfigured := true, totalSamplesDuringStream := 4 }

/-- An Idle state with three samples captured in this connection. -/
def c7idleState : PipelineState :=
  { initState with totalSamplesDuringStream := 3 }

/-- A Streaming state that has captured six samples in this connection. -/
def c8streamState : PipelineState :=
  { initState with streaming := true, totalSamplesDuringStream := 6 }

/-- A Streaming state in which no sample has been captured yet. -/
def c8freshStreamState : PipelineState :=
  { initState with streaming := true }

/-- A short connection trace: start command, one sensor burst of
`CHUNK_SIZE` samples, one chunk transmission. -/
def sampleTrace : List SysOp :=
  [SysOp.cmd 'S' 0,
   SysOp.poll ((List.range 32).map fun i => (i + 11, 2 * i + 13)),
   SysOp.transmit]

/-- Observational equivalence of pipeline states: equality of every field
that subsequent pipeline operations can surface.  Ring cells outside the
live window and the stale session start time are unobservable (the start
time is re-recorded by `'S'` before any sample can be captured, and only
the wall-clock statistics of the summary read it). -/
def ObsEq (s t : PipelineState) : Prop :=
  s.seqNumber = t.seqNumber ∧ s.writeIndex = t.writeIndex ∧
    s.readIndex = t.readIndex ∧ s.bufferCount = t.bufferCount ∧
    s.totalSamplesDuringStream = t.totalSamplesDuringStream ∧
    s.streaming = t.streaming ∧ s.sensorConfigured = t.sensorConfigured ∧
    queueOf s = queueOf t

/-! ## Numeric values of the derived constants -/

theorem BUFFER_SIZE_eq : BUFFER_SIZE = 1000 := rfl

theorem CHUNK_SIZE_eq : CHUNK_SIZE = 32 := rfl

theorem BATCH_SIZE_eq : BATCH_SIZE = 16 := rfl

theorem PACKET_SIZE_eq : PACKET_SIZE = 129 := rfl

/-! ## Basic facts about `pushSample` -/

theorem pushSample_seqNumber (s : PipelineState) (a b : Nat) :
    (pushSample s a b).seqNumber = s.seqNumber := by
  unfold pushSample; split <;> rfl

theorem pushSample_streaming (s : PipelineState) (a b : Nat) :
    (pushSample s a b).streaming = s.streaming := by
  unfold pushSample; split <;> rfl

theorem pushSample_sensorConfigured (s : PipelineState) (a b : Nat) :
    (pushSample s a b).sensorConfigured = s.sensorConfigured := by
  unfold pushSample; split <;> rfl

theorem pushSample_total (s : PipelineState) (a b : Nat) :
    (pushSample s a b).totalSamplesDuringStream
      = s.totalSamplesDuringStream + 1 := by
  unfold pushSample; split <;> rfl

theorem pushSample_of_full (s : PipelineState) (a b : Nat)
    (h : ¬ s.bufferCount < BUFFER_SIZE) :
    pushSample s a b
      = { s with totalSamplesDuringStream := s.totalSamplesDuringStream + 1 } := by
  unfold pushSample
  rw [if_neg h]

theorem pushSample_inv (s : PipelineState) (a b : Nat) (h : BufInv s) :
    BufInv (pushSample s a b) := by
  obtain ⟨h1, h2, h3⟩ := h
  unfold pushSample BufInv
  split <;> simp only [BUFFER_SIZE_eq] at * <;> omega

/-! ## The extraction loop -/

theorem popLoop_spec (n : Nat) (s : PipelineState)
    (h : s.readIndex < BUFFER_SIZE) :
    popLoop n s =
      ((List.range n).map (fun i =>
        (s.irRingBuffer ((s.readIndex + i) % BUFFER_SIZE),
         s.redRingBuffer ((s.readIndex + i) % BUFFER_SIZE))),
       { s with readIndex := (s.readIndex + n) % BUFFER_SIZE }) := by
  induction n generalizing s with
  | zero =>
    simp only [popLoop, List.range_zero, List.map_nil, Nat.add_zero,
      Nat.mod_eq_of_lt h]
  | succ n ih =>
    rw [popLoop]
    have hlt : ((s.readIndex + 1) % BUFFER_SIZE) < BUFFER_SIZE := by
      simp only [BUFFER_SIZE_eq]; omega
    rw [ih _ hlt]
    simp only [BUFFER_SIZE_eq] at *
    have e1 : ∀ i : Nat,
        ((s.readIndex + 1) % 1000 + i) % 1000 = (s.readIndex + (i + 1)) % 1000 :=
      fun i => by omega
    have e2 : ((s.readIndex + 1) % 1000 + n) % 1000
        = (s.readIndex + (n + 1)) % 1000 := by omega
    rw [List.range_succ_eq_map]
    simp [e1, e2, Function.comp, Nat.mod_eq_of_lt h, Nat.succ_eq_add_one]


/-! ## `popN`: failure and success shapes -/

theorem popN_fail (n : Nat) (s : PipelineState) (h : s.bufferCount < n) :
    popN n s = (false, [], s) := by
  unfold popN
  rw [if_pos h]

theorem queueOf_take (s : PipelineState) (n : Nat) (hn : n ≤ s.bufferCount) :
    (queueOf s).take n
      = (List.range n).map (fun i =>
          (s.irRingBuffer ((s.readIndex + i) % BUFFER_SIZE),
           s.redRingBuffer ((s.readIndex + i) % BUFFER_SIZE))) := by
  unfold queueOf
  rw [← List.map_take, List.take_range, Nat.min_eq_left hn]

theorem popN_success (n : Nat) (s : PipelineState) (hinv : BufInv s)
    (hn : n ≤ s.bufferCount) :
    popN n s = (true, (queueOf s).take n,
      { s with readIndex := (s.readIndex + n) % BUFFER_SIZE,
               bufferCount := s.bufferCount - n }) := by
  obtain ⟨h1, h2, h3⟩ := hinv
  unfold popN
  rw [if_neg (by omega)]
  rw [popLoop_spec n s h1, queueOf_take s n hn]

theorem popN_inv (n : Nat) (s : PipelineState) (hinv : BufInv s) :
    BufInv (popN n s).2.2 := by
  by_cases h : s.bufferCount < n
  · rw [popN_fail n s h]; exact hinv
  · obtain ⟨h1, h2, h3⟩ := hinv
    rw [popN_success n s ⟨h1, h2, h3⟩ (by omega)]
    refine ⟨?_, ?_, ?_⟩
    · show (s.readIndex + n) % BUFFER_SIZE < BUFFER_SIZE
      simp only [BUFFER_SIZE_eq]; omega
    · show s.bufferCount - n ≤ BUFFER_SIZE
      simp only [BUFFER_SIZE_eq] at *; omega
    · show s.writeIndex
        = ((s.readIndex + n) % BUFFER_SIZE + (s.bufferCount - n)) % BUFFER_SIZE
      simp only [BUFFER_SIZE_eq] at *; omega

theorem queueOf_popN (n : Nat) (s : PipelineState) (hinv : BufInv s)
    (hn : n ≤ s.bufferCount) :
    queueOf (popN n s).2.2 = (queueOf s).drop n := by
  obtain ⟨h1, h2, h3⟩ := hinv
  rw [popN_success n s ⟨h1, h2, h3⟩ hn]
  show (List.range (s.bufferCount - n)).map (fun i =>
      (s.irRingBuffer (((s.readIndex + n) % BUFFER_SIZE + i) % BUFFER_SIZE),
       s.redRingBuffer (((s.readIndex + n) % BUFFER_SIZE + i) % BUFFER_SIZE)))
    = (queueOf s).drop n
  unfold queueOf
  rw [← List.map_drop]
  have hc : s.bufferCount = n + (s.bufferCount - n) := by omega
  conv_rhs => rw [hc]
  rw [List.range_add, List.drop_append_of_le_length (by simp)]
  have hdrop : (List.range n).drop n = [] := by simp
  rw [hdrop, List.nil_append, List.map_map]
  apply List.map_congr_left
  intro i _
  simp only [Function.comp_apply, BUFFER_SIZE_eq] at *
  have heq : ((s.readIndex + n) % 1000 + i) % 1000
      = (s.readIndex + (n + i)) % 1000 := by omega
  simp [heq]

/-! ## `pushSample` refines queue append -/

theorem queueOf_pushSample (s : PipelineState) (a b : Nat) (hinv : BufInv s)
    (h : s.bufferCount < BUFFER_SIZE) :
    queueOf (pushSample s a b) = queueOf s ++ [(a, b)] := by
  obtain ⟨h1, h2, h3⟩ := hinv
  unfold pushSample
  rw [if_pos h]
  show (List.range (s.bufferCount + 1)).map (fun i =>
      ((fun j => if j = s.writeIndex then a else s.irRingBuffer j)
        ((s.readIndex + i) % BUFFER_SIZE),
       (fun j => if j = s.writeIndex then b else s.redRingBuffer j)
        ((s.readIndex + i) % BUFFER_SIZE)))
    = queueOf s ++ [(a, b)]
  unfold queueOf
  rw [List.range_succ, List.map_append, List.map_cons, List.map_nil]
  simp only [BUFFER_SIZE_eq] at *
  congr 1
  · apply List.map_congr_left
    intro i hi
    simp only [List.mem_range] at hi
    have hne : ¬ ((s.readIndex + i) % 1000 = s.writeIndex) := by omega
    simp only [hne, if_neg, ite_false]
  · have heq : (s.readIndex + s.bufferCount) % 1000 = s.writeIndex := by omega
    simp only [heq, ite_true, if_pos]


/-! ## Field preservation by the non-buffer operations -/

theorem queueOf_congr (s t : PipelineState)
    (hir : t.irRingBuffer = s.irRingBuffer)
    (hred : t.redRingBuffer = s.redRingBuffer)
    (hr : t.readIndex = s.readIndex) (hc : t.bufferCount = s.bufferCount) :
    queueOf t = queueOf s := by
  unfold queueOf
  rw [hir, hred, hr, hc]

theorem bufInv_congr (s t : PipelineState)
    (hw : t.writeIndex = s.writeIndex) (hr : t.readIndex = s.readIndex)
    (hc : t.bufferCount = s.bufferCount) (h : BufInv s) : BufInv t := by
  obtain ⟨h1, h2, h3⟩ := h
  exact ⟨hr ▸ h1, hc ▸ h2, by rw [hw, hr, hc]; exact h3⟩

theorem handleCommand_fields (dbg : Nat) (s : PipelineState) (now : Nat)
    (c : Char) :
    (handleCommand dbg s now c).1.irRingBuffer = s.irRingBuffer ∧
    (handleCommand dbg s now c).1.redRingBuffer = s.redRingBuffer ∧
    (handleCommand dbg s now c).1.writeIndex = s.writeIndex ∧
    (handleCommand dbg s now c).1.readIndex = s.readIndex ∧
    (handleCommand dbg s now c).1.bufferCount = s.bufferCount ∧
    (handleCommand dbg s now c).1.seqNumber = s.seqNumber ∧
    (handleCommand dbg s now c).1.totalSamplesDuringStream
      = s.totalSamplesDuringStream := by
  unfold handleCommand configureSensor
  repeat' split
  all_goals exact ⟨rfl, rfl, rfl, rfl, rfl, rfl, rfl⟩

theorem shutdownSensor_fields (dbg : Nat) (s : PipelineState) :
    (shutdownSensor dbg s).1.irRingBuffer = s.irRingBuffer ∧
    (shutdownSensor dbg s).1.redRingBuffer = s.redRingBuffer ∧
    (shutdownSensor dbg s).1.writeIndex = s.writeIndex ∧
    (shutdownSensor dbg s).1.readIndex = s.readIndex ∧
    (shutdownSensor dbg s).1.bufferCount = s.bufferCount ∧
    (shutdownSensor dbg s).1.seqNumber = s.seqNumber ∧
    (shutdownSensor dbg s).1.totalSamplesDuringStream
      = s.totalSamplesDuringStream ∧
    (shutdownSensor dbg s).1.streaming = s.streaming := by
  unfold shutdownSensor
  repeat' split
  all_goals exact ⟨rfl, rfl, rfl, rfl, rfl, rfl, rfl, rfl⟩

/-! ## The acquisition fold -/

theorem foldl_push_seqNumber (samples : List (Nat × Nat)) (s : PipelineState) :
    (samples.foldl (fun t p => pushSample t p.1 p.2) s).seqNumber
      = s.seqNumber := by
  induction samples generalizing s with
  | nil => rfl
  | cons p rest ih => rw [List.foldl_cons, ih, pushSample_seqNumber]

theorem foldl_push_streaming (samples : List (Nat × Nat)) (s : PipelineState) :
    (samples.foldl (fun t p => pushSample t p.1 p.2) s).streaming
      = s.streaming := by
  induction samples generalizing s with
  | nil => rfl
  | cons p rest ih => rw [List.foldl_cons, ih, pushSample_streaming]

theorem foldl_push_sensorConfigured (samples : List (Nat × Nat))
    (s : PipelineState) :
    (samples.foldl (fun t p => pushSample t p.1 p.2) s).sensorConfigured
      = s.sensorConfigured := by
  induction samples generalizing s with
  | nil => rfl
  | cons p rest ih => rw [List.foldl_cons, ih, pushSample_sensorConfigured]

theorem foldl_push_inv (samples : List (Nat × Nat)) (s : PipelineState)
    (h : BufInv s) :
    BufInv (samples.foldl (fun t p => pushSample t p.1 p.2) s) := by
  induction samples generalizing s with
  | nil => exact h
  | cons p rest ih => exact ih _ (pushSample_inv _ _ _ h)

theorem pollSensor_inv (s : PipelineState) (samples : List (Nat × Nat))
    (h : BufInv s) : BufInv (pollSensor s samples).1 := by
  unfold pollSensor
  split
  · exact h
  · exact foldl_push_inv samples s h

/-! ## `transmitChunk`: failure and success shapes -/

theorem transmitChunk_fail (s : PipelineState)
    (h : s.bufferCount < CHUNK_SIZE) : transmitChunk s = (false, s, []) := by
  unfold transmitChunk extractChunk
  rw [popN_fail _ _ h]
  rfl

theorem transmitChunk_success (s : PipelineState) (hinv : BufInv s)
    (h : CHUNK_SIZE ≤ s.bufferCount) :
    transmitChunk s = (true,
      { s with seqNumber := (s.seqNumber + 1) % 256,
               readIndex := (s.readIndex + CHUNK_SIZE) % BUFFER_SIZE,
               bufferCount := s.bufferCount - CHUNK_SIZE },
      encodeFrames ((s.seqNumber + 1) % 256) ((queueOf s).take CHUNK_SIZE)) := by
  unfold transmitChunk extractChunk
  rw [popN_success _ _ hinv h]
  rfl

theorem transmitChunk_inv (s : PipelineState) (h : BufInv s) :
    BufInv (transmitChunk s).2.1 := by
  by_cases hc : s.bufferCount < CHUNK_SIZE
  · rw [transmitChunk_fail s hc]; exact h
  · rw [transmitChunk_success s h (by omega)]
    obtain ⟨h1, h2, h3⟩ := h
    refine ⟨?_, ?_, ?_⟩
    · show (s.readIndex + CHUNK_SIZE) % BUFFER_SIZE < BUFFER_SIZE
      simp only [BUFFER_SIZE_eq]; omega
    · show s.bufferCount - CHUNK_SIZE ≤ BUFFER_SIZE
      simp only [BUFFER_SIZE_eq] at *; omega
    · show s.writeIndex = ((s.readIndex + CHUNK_SIZE) % BUFFER_SIZE
          + (s.bufferCount - CHUNK_SIZE)) % BUFFER_SIZE
      simp only [BUFFER_SIZE_eq, CHUNK_SIZE_eq] at *; omega

/-! ## Every reachable state satisfies the buffer invariant -/

theorem reachable_bufInv (s : PipelineState) (h : Reachable s) : BufInv s := by
  induction h with
  | init =>
    refine ⟨?_, ?_, ?_⟩ <;> simp [initState, BUFFER_SIZE_eq]
  | reset ih =>
    refine ⟨?_, ?_, ?_⟩ <;> simp [resetStreamingState, BUFFER_SIZE_eq]
  | push ir red _ ih => exact pushSample_inv _ _ _ ih
  | poll samples _ ih => exact pollSensor_inv _ _ ih
  | pop n _ ih => exact popN_inv _ _ ih
  | transmit _ ih => exact transmitChunk_inv _ ih
  | cmd dbg now c _ ih =>
    obtain ⟨e1, e2, e3, e4, e5, e6, e7⟩ := handleCommand_fields dbg _ now c
    exact bufInv_congr _ _ e3 e4 e5 ih
  | disconnect dbg _ ih =>
    obtain ⟨e1, e2, e3, e4, e5, e6, e7, e8⟩ :=
      shutdownSensor_fields dbg (resetStreamingState _)
    refine bufInv_congr _ _ e3 e4 e5 ?_
    refine ⟨?_, ?_, ?_⟩ <;> simp [resetStreamingState, BUFFER_SIZE_eq]


/-! ## The FIFO trace identity -/

theorem runBuf_queue (ops : List BufOp) (s : PipelineState) (hinv : BufInv s)
    (hadm : admissible s ops = true) :
    (runBuf s ops).2 ++ queueOf (runBuf s ops).1
        = queueOf s ++ pushedOf ops ∧
      BufInv (runBuf s ops).1 := by
  induction ops generalizing s with
  | nil => exact ⟨by simp [runBuf, pushedOf], hinv⟩
  | cons op rest ih =>
    cases op with
    | push a b =>
      rw [admissible] at hadm
      simp only [Bool.and_eq_true, decide_eq_true_eq] at hadm
      obtain ⟨hlt, hadm⟩ := hadm
      have ih2 := ih (pushSample s a b) (pushSample_inv _ _ _ hinv) hadm
      rw [runBuf]
      refine ⟨?_, ih2.2⟩
      rw [ih2.1, queueOf_pushSample s a b hinv hlt, pushedOf]
      simp
    | popn n =>
      rw [admissible] at hadm
      simp only [Bool.and_eq_true, decide_eq_true_eq] at hadm
      obtain ⟨hle, hadm⟩ := hadm
      have ih2 := ih (popN n s).2.2 (popN_inv _ _ hinv) hadm
      rw [runBuf]
      refine ⟨?_, ih2.2⟩
      show (popN n s).2.1 ++ (runBuf (popN n s).2.2 rest).2
          ++ queueOf (runBuf (popN n s).2.2 rest).1 = _
      rw [List.append_assoc, ih2.1, queueOf_popN n s hinv hle,
        popN_success n s hinv hle, pushedOf]
      show (queueOf s).take n ++ ((queueOf s).drop n ++ pushedOf rest) = _
      rw [← List.append_assoc, List.take_append_drop]


/-- C1: for every sequence of pushes of (IR, Red) sample pairs in which the
buffer count never reaches capacity, and any interleaving with successful
extractions (`pop_n` / `extractChunk`), the concatenation of the extracted
samples followed by the samples still buffered equals the pushed samples
in their original production order; in particular the extracted stream is
the prefix of the production stream of its own length (FIFO order). -/
theorem c1_fifo_extraction (s : PipelineState) (ops : List BufOp)
    (hinv : BufInv s) (hempty : queueOf s = [])
    (hadm : admissible s ops = true) :
    (runBuf s ops).2 ++ queueOf (runBuf s ops).1 = pushedOf ops ∧
      (runBuf s ops).2 = (pushedOf ops).take (runBuf s ops).2.length := by
  have h := (runBuf_queue ops s hinv hadm).1
  rw [hempty, List.nil_append] at h
  refine ⟨h, ?_⟩
  rw [← h, List.take_left]

theorem c1_fifo_extraction_witness :
    (BufInv initState ∧ queueOf initState = [] ∧
      admissible initState
        [BufOp.push 1 2, BufOp.push 3 4, BufOp.push 5 6, BufOp.popn 2]
        = true) ∧
    ((runBuf initState
        [BufOp.push 1 2, BufOp.push 3 4, BufOp.push 5 6, BufOp.popn 2]).2 ++
      queueOf (runBuf initState
        [BufOp.push 1 2, BufOp.push 3 4, BufOp.push 5 6, BufOp.popn 2]).1
      = pushedOf
        [BufOp.push 1 2, BufOp.push 3 4, BufOp.push 5 6, BufOp.popn 2] ∧
     (runBuf initState
        [BufOp.push 1 2, BufOp.push 3 4, BufOp.push 5 6, BufOp.popn 2]).2
      = (pushedOf
          [BufOp.push 1 2, BufOp.push 3 4, BufOp.push 5 6, BufOp.popn 2]).take
          (runBuf initState
            [BufOp.push 1 2, BufOp.push 3 4, BufOp.push 5 6,
              BufOp.popn 2]).2.length) :=
  ⟨⟨by decide, by decide, by decide⟩,
    c1_fifo_extraction initState
      [BufOp.push 1 2, BufOp.push 3 4, BufOp.push 5 6, BufOp.popn 2]
      (by decide) (by decide) (by decide)⟩

/-- C2: whenever fewer than `n` samples are buffered, `pop_n(n)` (and in
particular `extractChunk` for `n = CHUNK_SIZE`) fails and returns the
buffer state completely unchanged — same read index, write index, count
and stored samples (the very state `s`): extraction is all-or-nothing. -/
theorem c2_pop_all_or_nothing (s : PipelineState) (n : Nat)
    (h1 : s.bufferCount < n) (h2 : s.bufferCount < CHUNK_SIZE) :
    popN n s = (false, [], s) ∧ extractChunk s = (false, [], s) :=
  ⟨popN_fail n s h1, popN_fail CHUNK_SIZE s h2⟩

theorem c2_pop_all_or_nothing_witness :
    (initState.bufferCount < 7 ∧ initState.bufferCount < CHUNK_SIZE) ∧
    (popN 7 initState = (false, [], initState) ∧
      extractChunk initState = (false, [], initState)) :=
  ⟨⟨by decide, by decide⟩,
    c2_pop_all_or_nothing initState 7 (by decide) (by decide)⟩

/-- C3: every reachable pipeline state keeps the buffer count in
`[0, BUFFER_SIZE]` and both indices in `[0, BUFFER_SIZE)` (counts are
naturals, so the lower bounds are inherent); and a push arriving when the
count equals the capacity is rejected: the resulting state differs only in
the session sample counter — stored samples, both indices and the count
are untouched. -/
theorem c3_invariant_overflow_rejected (s : PipelineState)
    (h : Reachable s) :
    (s.bufferCount ≤ BUFFER_SIZE ∧ s.writeIndex < BUFFER_SIZE ∧
      s.readIndex < BUFFER_SIZE) ∧
    ∀ ir red, s.bufferCount = BUFFER_SIZE →
      pushSample s ir red
        = { s with totalSamplesDuringStream
              := s.totalSamplesDuringStream + 1 } := by
  obtain ⟨h1, h2, h3⟩ := reachable_bufInv s h
  constructor
  · refine ⟨h2, ?_, h1⟩
    rw [h3]
    simp only [BUFFER_SIZE_eq]
    omega
  · intro ir red hc
    exact pushSample_of_full s ir red (by omega)

theorem c3_invariant_overflow_rejected_witness :
    Reachable (pushSample initState 7 9) ∧
    ((pushSample initState 7 9).bufferCount ≤ BUFFER_SIZE ∧
      (pushSample initState 7 9).writeIndex < BUFFER_SIZE ∧
      (pushSample initState 7 9).readIndex < BUFFER_SIZE) ∧
    ∀ ir red, (pushSample initState 7 9).bufferCount = BUFFER_SIZE →
      pushSample (pushSample initState 7 9) ir red
        = { pushSample initState 7 9 with totalSamplesDuringStream
              := (pushSample initState 7 9).totalSamplesDuringStream + 1 } :=
  ⟨Reachable.push 7 9 Reachable.init,
    c3_invariant_overflow_rejected (pushSample initState 7 9)
      (Reachable.push 7 9 Reachable.init)⟩


/-! ## Byte-level round trip -/

theorem land_255 (x : Nat) : x &&& 255 = x % 256 := by
  have h := Nat.and_pow_two_sub_one_eq_mod x 8
  norm_num at h
  exact h

theorem decodeBE4_encodeBE4 (v : Nat) (h : v < 4294967296) :
    decodeBE4 (encodeBE4 v) = v := by
  show (((0 * 256 + (v >>> 24 &&& 255)) * 256 + (v >>> 16 &&& 255)) * 256
      + (v >>> 8 &&& 255)) * 256 + (v &&& 255) = v
  simp only [land_255, Nat.shiftRight_eq_div_pow]
  norm_num
  omega

theorem decodeSamples_enc (a b : Nat) (rest : List Nat)
    (ha : a < 4294967296) (hb : b < 4294967296) :
    decodeSamples (encodeBE4 a ++ encodeBE4 b ++ rest)
      = (a, b) :: decodeSamples rest := by
  calc decodeSamples (encodeBE4 a ++ encodeBE4 b ++ rest)
      = (decodeBE4 (encodeBE4 a), decodeBE4 (encodeBE4 b))
          :: decodeSamples rest := rfl
    _ = (a, b) :: decodeSamples rest := by
        rw [decodeBE4_encodeBE4 a ha, decodeBE4_encodeBE4 b hb]

theorem decodeSamples_flatMap (l : List (Nat × Nat))
    (h : ∀ p ∈ l, p.1 < 4294967296 ∧ p.2 < 4294967296) :
    decodeSamples (l.flatMap fun p => encodeBE4 p.1 ++ encodeBE4 p.2) = l := by
  induction l with
  | nil => rfl
  | cons p rest ih =>
    rw [List.flatMap_cons,
      decodeSamples_enc p.1 p.2 _ (h p (by simp)).1 (h p (by simp)).2,
      ih (fun q hq => h q (by simp [hq]))]

/-! ## Chunk re-assembly from `BATCH_SIZE` blocks -/

theorem flatMap_congr {α β : Type} (l : List α) (f g : α → List β)
    (h : ∀ a ∈ l, f a = g a) : l.flatMap f = l.flatMap g := by
  induction l with
  | nil => rfl
  | cons a rest ih =>
    rw [List.flatMap_cons, List.flatMap_cons, h a (by simp),
      ih (fun x hx => h x (by simp [hx]))]

theorem range_map_getD (n : Nat) (l : List (Nat × Nat)) (h : n ≤ l.length) :
    (List.range n).map (fun k => l.getD k (0, 0)) = l.take n := by
  apply List.ext_getElem
  · simp [h]
  · intro i h1 h2
    simp only [List.getElem_map, List.getElem_range, List.getElem_take]
    simp only [List.length_map, List.length_range] at h1
    rw [List.getD_eq_getElem?_getD, List.getElem?_eq_getElem (by omega)]
    rfl

theorem blocks_getD (m n : Nat) (l : List (Nat × Nat)) (h : l.length = m * n) :
    (List.range m).flatMap
        (fun p => (List.range n).map fun k => l.getD (p * n + k) (0, 0))
      = l := by
  induction m generalizing l with
  | zero =>
    have : l = [] := List.length_eq_zero.mp (by omega)
    simp [this]
  | succ m ih =>
    have hlen : l.length = n + m * n := by rw [h]; ring_nf
    have hfirst : (List.range n).map (fun k => l.getD (0 * n + k) (0, 0))
        = l.take n := by
      simp only [Nat.zero_mul, Nat.zero_add]
      exact range_map_getD n l (by omega)
    have hrest : (List.range m).flatMap
          (fun p => (List.range n).map fun k =>
            l.getD ((p + 1) * n + k) (0, 0))
        = l.drop n := by
      have hstep : ∀ p ∈ List.range m,
          ((List.range n).map fun k => l.getD ((p + 1) * n + k) (0, 0))
            = (List.range n).map fun k => (l.drop n).getD (p * n + k) (0, 0) := by
        intro p _
        apply List.map_congr_left
        intro k _
        rw [List.getD_eq_getElem?_getD, List.getD_eq_getElem?_getD,
          List.getElem?_drop]
        congr 1
        ring_nf
      rw [flatMap_congr _ _ _ hstep]
      exact ih (l.drop n) (by simp [List.length_drop]; omega)
    rw [List.range_succ_eq_map, List.flatMap_cons, List.flatMap_map]
    simp only [Nat.succ_eq_add_one]
    rw [hfirst, hrest]
    exact List.take_append_drop n l


/-! ## Frame shape -/

theorem length_flatMap_const {α : Type} (f : Nat → List α) (c n : Nat)
    (h : ∀ k, (f k).length = c) :
    ((List.range n).flatMap f).length = n * c := by
  induction n with
  | zero => simp
  | succ n ih =>
    rw [List.range_succ, List.flatMap_append, List.length_append, ih]
    have : ([n].flatMap f).length = c := by
      simp [List.flatMap, h n]
    rw [this]
    ring_nf

theorem buildPacket_length (seq : Nat) (chunk : List (Nat × Nat)) (p : Nat) :
    (buildPacket seq chunk p).length = PACKET_SIZE := by
  unfold buildPacket
  have h8 := length_flatMap_const
    (fun k => encodeBE4 (chunk.getD (p * BATCH_SIZE + k) (0, 0)).1 ++
      encodeBE4 (chunk.getD (p * BATCH_SIZE + k) (0, 0)).2)
    8 BATCH_SIZE (fun k => rfl)
  rw [List.length_cons, h8]
  rfl

theorem buildPacket_headD (seq d : Nat) (chunk : List (Nat × Nat)) (p : Nat) :
    (buildPacket seq chunk p).headD d = seq := rfl

/-- C4: encoding a chunk of `CHUNK_SIZE` (IR, Red) 32-bit pairs yields
`CHUNK_SIZE / BATCH_SIZE` frames, each of `PACKET_SIZE` bytes starting
with the sequence byte, and decoding the frames (stripping each sequence
byte and reading each sample as IR then Red, four big-endian bytes each)
returns exactly the original pairs in the original oldest-first order. -/
theorem c4_roundtrip (seq : Nat) (chunk : List (Nat × Nat))
    (hlen : chunk.length = CHUNK_SIZE)
    (hb : ∀ p ∈ chunk, p.1 < 4294967296 ∧ p.2 < 4294967296) :
    decodeFrames (encodeFrames seq chunk) = chunk ∧
    (encodeFrames seq chunk).length = CHUNK_SIZE / BATCH_SIZE ∧
    ∀ f ∈ encodeFrames seq chunk,
      f.length = PACKET_SIZE ∧ f.headD 0 = seq := by
  have hinner : ∀ p ∈ List.range (CHUNK_SIZE / BATCH_SIZE),
      decodeSamples (buildPacket seq chunk p).tail
        = (List.range BATCH_SIZE).map
            (fun k => chunk.getD (p * BATCH_SIZE + k) (0, 0)) := by
    intro p hp
    have htail : (buildPacket seq chunk p).tail
        = ((List.range BATCH_SIZE).map
            (fun k => chunk.getD (p * BATCH_SIZE + k) (0, 0))).flatMap
              (fun q => encodeBE4 q.1 ++ encodeBE4 q.2) := by
      rw [List.flatMap_map]
      rfl
    rw [htail]
    apply decodeSamples_flatMap
    intro q hq
    simp only [List.mem_map, List.mem_range] at hq
    obtain ⟨k, hk, hqeq⟩ := hq
    simp only [List.mem_range] at hp
    have hidx : p * BATCH_SIZE + k < chunk.length := by
      rw [hlen]
      simp only [CHUNK_SIZE_eq, BATCH_SIZE_eq] at *
      omega
    have hmem : chunk.getD (p * BATCH_SIZE + k) (0, 0) ∈ chunk := by
      rw [List.getD_eq_getElem?_getD, List.getElem?_eq_getElem hidx,
        Option.getD_some]
      exact List.getElem_mem hidx
    rw [← hqeq]
    exact hb _ hmem
  refine ⟨?_, by simp [encodeFrames], ?_⟩
  · unfold decodeFrames encodeFrames
    rw [List.flatMap_map, flatMap_congr _ _ _ hinner]
    exact blocks_getD (CHUNK_SIZE / BATCH_SIZE) BATCH_SIZE chunk
      (by rw [hlen]; rfl)
  · intro f hf
    simp only [encodeFrames, List.mem_map] at hf
    obtain ⟨p, hp, hfeq⟩ := hf
    rw [← hfeq]
    exact ⟨buildPacket_length seq chunk p, buildPacket_headD seq 0 chunk p⟩

theorem c4_roundtrip_witness :
    (((List.range 32).map (fun i => (i * 3 + 1, i * 5 + 2))).length
        = CHUNK_SIZE ∧
      ∀ p ∈ (List.range 32).map (fun i => (i * 3 + 1, i * 5 + 2)),
        p.1 < 4294967296 ∧ p.2 < 4294967296) ∧
    decodeFrames (encodeFrames 1
        ((List.range 32).map (fun i => (i * 3 + 1, i * 5 + 2))))
      = (List.range 32).map (fun i => (i * 3 + 1, i * 5 + 2)) :=
  ⟨⟨by decide, by decide⟩,
    (c4_roundtrip 1 ((List.range 32).map (fun i => (i * 3 + 1, i * 5 + 2)))
      (by decide) (by decide)).1⟩


/-! ## Sequence-number bookkeeping along a connection trace -/

theorem pollSensor_seqNumber (s : PipelineState) (samples : List (Nat × Nat)) :
    (pollSensor s samples).1.seqNumber = s.seqNumber := by
  unfold pollSensor
  split
  · rfl
  · exact foldl_push_seqNumber samples s

theorem runSys_seq (dbg : Nat) (ops : List SysOp) (s : PipelineState)
    (g : Nat) (hseq : s.seqNumber = g % 256) (hinv : BufInv s) :
    (runSys dbg s ops).1.seqNumber
        = (g + (runSys dbg s ops).2.1.length) % 256 ∧
      BufInv (runSys dbg s ops).1 ∧
      ∀ i < (runSys dbg s ops).2.1.length,
        ∀ f ∈ (runSys dbg s ops).2.1.getD i [],
          f.headD 0 = (g + i + 1) % 256 := by
  induction ops generalizing s g with
  | nil =>
    refine ⟨by simpa [runSys] using hseq, by simpa [runSys] using hinv, ?_⟩
    intro i hi
    simp [runSys] at hi
  | cons op rest ih =>
    cases op with
    | cmd c now =>
      obtain ⟨e1, e2, e3, e4, e5, e6, e7⟩ := handleCommand_fields dbg s now c
      have ih2 := ih (handleCommand dbg s now c).1 g (by rw [e6, hseq])
        (bufInv_congr _ _ e3 e4 e5 hinv)
      simpa [runSys, sysStep] using ih2
    | poll samples =>
      have hb : BufInv (pollSensor s samples).1 := pollSensor_inv s samples hinv
      have ih2 := ih (pollSensor s samples).1 g
        (by rw [pollSensor_seqNumber, hseq]) hb
      simpa [runSys, sysStep] using ih2
    | transmit =>
      by_cases hc : s.bufferCount < CHUNK_SIZE
      · have hstep : sysStep dbg s SysOp.transmit = (s, [], []) := by
          simp [sysStep, transmitChunk_fail s hc]
        have ih2 := ih s g hseq hinv
        simp only [runSys, hstep]
        simpa using ih2
      · have htc := transmitChunk_success s hinv (by omega)
        have hstep : sysStep dbg s SysOp.transmit
            = ((transmitChunk s).2.1, [(transmitChunk s).2.2], []) := by
          simp [sysStep, htc]
        have hseq2 : (transmitChunk s).2.1.seqNumber = (g + 1) % 256 := by
          rw [htc]
          show (s.seqNumber + 1) % 256 = (g + 1) % 256
          omega
        have hinv2 : BufInv (transmitChunk s).2.1 := transmitChunk_inv s hinv
        have hhead : ∀ f ∈ (transmitChunk s).2.2, f.headD 0 = (g + 1) % 256 := by
          rw [htc]
          intro f hf
          simp only [encodeFrames, List.mem_map] at hf
          obtain ⟨p, hp, hfeq⟩ := hf
          rw [← hfeq, buildPacket_headD]
          omega
        have ih2 := ih (transmitChunk s).2.1 (g + 1) hseq2 hinv2
        simp only [runSys, hstep]
        refine ⟨?_, ih2.2.1, ?_⟩
        · rw [ih2.1]
          simp only [List.length_append, List.length_cons, List.length_nil,
            List.nil_append]
          ring_nf
        · intro i hi f hf
          cases i with
          | zero =>
            simp only [List.singleton_append, List.getD_cons_zero] at hf
            exact hhead f hf
          | succ i =>
            simp only [List.singleton_append, List.getD_cons_succ] at hf
            simp only [List.singleton_append, List.length_cons] at hi
            have := ih2.2.2 i (by omega) f hf
            rw [this]
            ring_nf


/-! ## Shapes of the two command branches -/

theorem handleCommand_P (dbg : Nat) (s : PipelineState) (now : Nat) :
    handleCommand dbg s now 'P'
      = ({ s with streaming := false },
         debugPrint dbg DEBUG_INFO ++
           printStreamingSummary { s with streaming := false }, true) := by
  unfold handleCommand
  rw [if_neg (by simp), if_pos rfl]

theorem handleCommand_S (dbg : Nat) (s : PipelineState) (now : Nat)
    (h : s.streaming = false) :
    handleCommand dbg s now 'S'
      = ({ (if s.sensorConfigured = false then configureSensor dbg s
            else (s, [])).1 with
            streaming := true, streamingStartTime := now },
         debugPrint dbg DEBUG_INFO ++
           (if s.sensorConfigured = false then configureSensor dbg s
            else (s, [])).2,
         true) := by
  unfold handleCommand
  rw [if_pos ⟨rfl, h⟩]

theorem set_streaming_false_self (s : PipelineState) (h : s.streaming = false) :
    ({ s with streaming := false } : PipelineState) = s := by
  cases s
  simp_all

theorem summary_not_mem_debugPrint (dbg level a b : Nat) :
    Event.summary a b ∉ debugPrint dbg level := by
  unfold debugPrint
  split <;> simp

/-- C6 (amended): on `'S'` received while Idle the machine configures the
sensor exactly when it is not yet configured for this connection, starts
streaming, records the session start time — and leaves the session sample
counter (and the sequence counter and buffer state) unchanged; the session
sample counter is reset only by the connection-level reset, not by the
start command. -/
theorem c6_start_transition (dbg : Nat) (s : PipelineState) (now : Nat)
    (h : s.streaming = false) :
    (handleCommand dbg s now 'S').1.streaming = true ∧
    (handleCommand dbg s now 'S').1.streamingStartTime = now ∧
    (handleCommand dbg s now 'S').1.sensorConfigured = true ∧
    (handleCommand dbg s now 'S').1.totalSamplesDuringStream
      = s.totalSamplesDuringStream ∧
    (handleCommand dbg s now 'S').1.seqNumber = s.seqNumber ∧
    (handleCommand dbg s now 'S').1.bufferCount = s.bufferCount ∧
    (Event.configure ∈ (handleCommand dbg s now 'S').2.1
      ↔ s.sensorConfigured = false) ∧
    (handleCommand dbg s now 'S').2.2 = true := by
  rw [handleCommand_S dbg s now h]
  by_cases hc : s.sensorConfigured = false
  · rw [if_pos hc]
    refine ⟨rfl, rfl, rfl, rfl, rfl, rfl, ?_, rfl⟩
    simp [configureSensor, hc]
  · rw [if_neg hc]
    refine ⟨rfl, rfl, ?_, rfl, rfl, rfl, ?_, rfl⟩
    · show s.sensorConfigured = true
      simpa using hc
    · simp only [List.append_nil]
      have hnm : Event.configure ∉ debugPrint dbg DEBUG_INFO := by
        unfold debugPrint
        split <;> simp
      constructor
      · intro hmem
        exact absurd hmem hnm
      · intro hfalse
        exact absurd hfalse hc

theorem c6_start_transition_witness :
    c6idleState.streaming = false ∧
    ((handleCommand 2 c6idleState 55 'S').1.streaming = true ∧
     (handleCommand 2 c6idleState 55 'S').1.streamingStartTime = 55 ∧
     (handleCommand 2 c6idleState 55 'S').1.sensorConfigured = true ∧
     (handleCommand 2 c6idleState 55 'S').1.totalSamplesDuringStream
       = c6idleState.totalSamplesDuringStream ∧
     (handleCommand 2 c6idleState 55 'S').1.seqNumber
       = c6idleState.seqNumber ∧
     (handleCommand 2 c6idleState 55 'S').1.bufferCount
       = c6idleState.bufferCount ∧
     (Event.configure ∈ (handleCommand 2 c6idleState 55 'S').2.1
       ↔ c6idleState.sensorConfigured = false) ∧
     (handleCommand 2 c6idleState 55 'S').2.2 = true) :=
  ⟨rfl, c6_start_transition 2 c6idleState 55 rfl⟩

/-- C6 is refuted as stated: an Idle state that has already captured five
samples in this connection still holds five — not zero — after the `'S'`
transition, so the start command does not reset the session sample
counter. -/
theorem c6_counterexample :
    ({ initState with totalSamplesDuringStream := 5 } :
        PipelineState).streaming = false ∧
    (handleCommand 0 { initState with totalSamplesDuringStream := 5 }
        100 'S').1.totalSamplesDuringStream ≠ 0 :=
  ⟨rfl, by decide⟩


/-- C7 (amended): while Idle, an unrecognized command byte, or `'S'` while
already Streaming, is a strict no-op (state unchanged, no events, `false`
returned); `'P'` while Idle leaves the whole pipeline state unchanged and
returns `true`, but it re-runs the summary printer: the session summary is
re-emitted exactly when the session sample counter is nonzero (a silent
no-op only when it is zero, e.g. on a fresh connection). -/
theorem c7_idle_commands (dbg : Nat) (s : PipelineState) (now : Nat) :
    (∀ c : Char, c ≠ 'P' → (c = 'S' → s.streaming = true) →
      handleCommand dbg s now c = (s, [], false)) ∧
    (s.streaming = false →
      (handleCommand dbg s now 'P').1 = s ∧
      (handleCommand dbg s now 'P').2.2 = true ∧
      (Event.summary s.totalSamplesDuringStream s.seqNumber
          ∈ (handleCommand dbg s now 'P').2.1
        ↔ s.totalSamplesDuringStream ≠ 0)) := by
  constructor
  · intro c hp hs
    unfold handleCommand
    rw [if_neg, if_neg]
    · intro hceq
      exact hp hceq
    · rintro ⟨hceq, hstr⟩
      rw [hs hceq] at hstr
      cases hstr
  · intro hidle
    rw [handleCommand_P dbg s now, set_streaming_false_self s hidle]
    refine ⟨rfl, rfl, ?_⟩
    unfold printStreamingSummary
    by_cases h0 : s.totalSamplesDuringStream = 0
    · rw [if_pos h0]
      simp only [List.append_nil]
      constructor
      · intro hmem
        exact absurd hmem (summary_not_mem_debugPrint dbg DEBUG_INFO _ _)
      · intro hne
        exact absurd h0 hne
    · rw [if_neg h0]
      simp only [List.mem_append, List.mem_singleton]
      constructor
      · intro _
        exact h0
      · intro _
        right
        trivial

theorem c7_idle_commands_witness :
    (('Q' : Char) ≠ 'P' ∧ handleCommand 1 c6idleState 9 'Q'
        = (c6idleState, [], false)) ∧
    (c6idleState.streaming = false ∧
      (handleCommand 1 c6idleState 9 'P').1 = c6idleState ∧
      (handleCommand 1 c6idleState 9 'P').2.2 = true ∧
      (Event.summary c6idleState.totalSamplesDuringStream
          c6idleState.seqNumber ∈ (handleCommand 1 c6idleState 9 'P').2.1
        ↔ c6idleState.totalSamplesDuringStream ≠ 0)) :=
  ⟨⟨by decide,
      (c7_idle_commands 1 c6idleState 9).1 'Q' (by decide)
        (fun h => absurd h (by decide))⟩,
    ⟨rfl, (c7_idle_commands 1 c6idleState 9).2 rfl⟩⟩

/-- C7 is refuted as stated: in an Idle state whose session sample counter
is 3, command `'P'` emits the session summary again (and returns `true`),
so `'P'` while Idle is not free of side effects beyond acknowledging the
read. -/
theorem c7_counterexample :
    c7idleState.streaming = false ∧
    Event.summary 3 0 ∈ (handleCommand 0 c7idleState 0 'P').2.1 ∧
    (handleCommand 0 c7idleState 0 'P').2.2 = true :=
  ⟨rfl, by decide, rfl⟩

/-- C8 (amended): on `'P'` received while Streaming the machine always
transitions to Idle (stopping acquisition: a subsequent poll is a no-op)
and returns `true`; the session summary is emitted independently of the
diagnostic verbosity level, but only under the additional precondition
that the session sample counter is nonzero — a pause with zero captured
samples transitions silently. -/
theorem c8_pause_summary (dbg : Nat) (s : PipelineState) (now : Nat)
    (_hstreaming : s.streaming = true) :
    (handleCommand dbg s now 'P').1.streaming = false ∧
    (handleCommand dbg s now 'P').2.2 = true ∧
    (∀ samples, pollSensor (handleCommand dbg s now 'P').1 samples
      = ((handleCommand dbg s now 'P').1, 0)) ∧
    (Event.summary s.totalSamplesDuringStream s.seqNumber
        ∈ (handleCommand dbg s now 'P').2.1
      ↔ s.totalSamplesDuringStream ≠ 0) := by
  rw [handleCommand_P dbg s now]
  refine ⟨rfl, rfl, ?_, ?_⟩
  · intro samples
    unfold pollSensor
    rw [if_pos rfl]
  · unfold printStreamingSummary
    by_cases h0 : s.totalSamplesDuringStream = 0
    · rw [if_pos h0]
      simp only [List.append_nil]
      constructor
      · intro hmem
        exact absurd hmem (summary_not_mem_debugPrint dbg DEBUG_INFO _ _)
      · intro hne
        exact absurd h0 hne
    · rw [if_neg h0]
      simp only [List.mem_append, List.mem_singleton]
      constructor
      · intro _
        exact h0
      · intro _
        right
        trivial

theorem c8_pause_summary_witness :
    c8streamState.streaming = true ∧
    ((handleCommand 0 c8streamState 7 'P').1.streaming = false ∧
     (handleCommand 0 c8streamState 7 'P').2.2 = true ∧
     (∀ samples, pollSensor (handleCommand 0 c8streamState 7 'P').1 samples
       = ((handleCommand 0 c8streamState 7 'P').1, 0)) ∧
     (Event.summary c8streamState.totalSamplesDuringStream
         c8streamState.seqNumber ∈ (handleCommand 0 c8streamState 7 'P').2.1
       ↔ c8streamState.totalSamplesDuringStream ≠ 0)) :=
  ⟨rfl, c8_pause_summary 0 c8streamState 7 rfl⟩

/-- C8 is refuted as stated: a Streaming state with zero captured samples
transitions to Idle on `'P'` with no events at all — in particular no
session summary — so the summary is not emitted on every Streaming-to-Idle
pause. -/
theorem c8_counterexample :
    c8freshStreamState.streaming = true ∧
    (handleCommand 0 c8freshStreamState 0 'P').1.streaming = false ∧
    (handleCommand 0 c8freshStreamState 0 'P').2.1 = [] :=
  ⟨rfl, rfl, by decide⟩


theorem resetStreamingState_bufInv (s : PipelineState) :
    BufInv (resetStreamingState s) := by
  refine ⟨?_, ?_, ?_⟩ <;> simp [resetStreamingState, BUFFER_SIZE_eq]

/-- C5: starting from the post-connection reset state, along any trace of
commands, polls and transmissions, every frame of the i-th successfully
transmitted chunk (0-indexed) carries sequence byte `(i + 1) % 256` — so N
chunks carry `1, 2, …, N mod 256`, wrapping after 255 to 0, with one shared
byte per chunk — and the 8-bit counter afterwards equals the number of
transmitted chunks modulo 256: it is incremented exactly once per chunk,
never per frame. -/
theorem c5_sequence_numbering (dbg : Nat) (s0 : PipelineState)
    (ops : List SysOp) :
    (∀ i < (runSys dbg (resetStreamingState s0) ops).2.1.length,
      ∀ f ∈ (runSys dbg (resetStreamingState s0) ops).2.1.getD i [],
        f.headD 0 = (i + 1) % 256) ∧
    (runSys dbg (resetStreamingState s0) ops).1.seqNumber
      = (runSys dbg (resetStreamingState s0) ops).2.1.length % 256 := by
  have h := runSys_seq dbg ops (resetStreamingState s0) 0 rfl
    (resetStreamingState_bufInv s0)
  refine ⟨?_, by simpa using h.1⟩
  intro i hi f hf
  have := h.2.2 i hi f hf
  simpa using this

set_option maxRecDepth 100000 in
theorem c5_sequence_numbering_witness :
    (0 < (runSys 0 (resetStreamingState initState) sampleTrace).2.1.length ∧
      ((runSys 0 (resetStreamingState initState) sampleTrace).2.1.getD
          0 []).getD 0 []
        ∈ (runSys 0 (resetStreamingState initState) sampleTrace).2.1.getD
            0 []) ∧
    (((runSys 0 (resetStreamingState initState) sampleTrace).2.1.getD
        0 []).getD 0 []).headD 0 = (0 + 1) % 256 :=
  ⟨⟨by decide, by decide⟩,
    (c5_sequence_numbering 0 initState sampleTrace).1 0 (by decide) _
      (by decide)⟩

/-- C10: the `Chunks sent` field reported by the session summary is the
8-bit sequence counter, i.e. the number of chunks transmitted since the
connection was accepted, modulo 256: an `'S'` command never changes the
sequence counter (it is zeroed only by the connection-level reset), and
whenever a `'P'` received after an arbitrary trace emits the summary, the
reported chunk count is the trace's total number of transmitted chunks
mod 256, not the number since the most recent `'S'`. -/
theorem c10_chunks_sent_field (dbg : Nat) (s0 : PipelineState)
    (ops : List SysOp) (now : Nat) :
    ((handleCommand dbg (runSys dbg (resetStreamingState s0) ops).1 now
        'S').1.seqNumber
      = (runSys dbg (resetStreamingState s0) ops).1.seqNumber) ∧
    ((runSys dbg (resetStreamingState s0) ops).1.totalSamplesDuringStream
        ≠ 0 →
      Event.summary
          (runSys dbg (resetStreamingState s0) ops).1.totalSamplesDuringStream
          ((runSys dbg (resetStreamingState s0) ops).2.1.length % 256)
        ∈ (handleCommand dbg (runSys dbg (resetStreamingState s0) ops).1 now
            'P').2.1) := by
  have h := runSys_seq dbg ops (resetStreamingState s0) 0 rfl
    (resetStreamingState_bufInv s0)
  constructor
  · exact (handleCommand_fields dbg _ now 'S').2.2.2.2.2.1
  · intro hne
    rw [handleCommand_P]
    simp only [List.mem_append]
    right
    unfold printStreamingSummary
    rw [if_neg hne]
    have hseq : (runSys dbg (resetStreamingState s0) ops).1.seqNumber
        = (runSys dbg (resetStreamingState s0) ops).2.1.length % 256 := by
      simpa using h.1
    simp [hseq]

set_option maxRecDepth 100000 in
theorem c10_chunks_sent_field_witness :
    (runSys 0 (resetStreamingState initState)
        sampleTrace).1.totalSamplesDuringStream ≠ 0 ∧
    Event.summary
        (runSys 0 (resetStreamingState initState)
          sampleTrace).1.totalSamplesDuringStream
        ((runSys 0 (resetStreamingState initState)
          sampleTrace).2.1.length % 256)
      ∈ (handleCommand 0 (runSys 0 (resetStreamingState initState)
          sampleTrace).1 3 'P').2.1 :=
  ⟨by decide,
    (c10_chunks_sent_field 0 initState sampleTrace 3).2 (by decide)⟩


/-! ## Observational equivalence is preserved by every pipeline step -/

theorem pushSample_writeIndex (s : PipelineState) (a b : Nat) :
    (pushSample s a b).writeIndex
      = if s.bufferCount < BUFFER_SIZE then (s.writeIndex + 1) % BUFFER_SIZE
        else s.writeIndex := by
  unfold pushSample
  split <;> rfl

theorem pushSample_readIndex (s : PipelineState) (a b : Nat) :
    (pushSample s a b).readIndex = s.readIndex := by
  unfold pushSample
  split <;> rfl

theorem pushSample_bufferCount (s : PipelineState) (a b : Nat) :
    (pushSample s a b).bufferCount
      = if s.bufferCount < BUFFER_SIZE then s.bufferCount + 1
        else s.bufferCount := by
  unfold pushSample
  split <;> rfl

theorem queueOf_pushSample_full (s : PipelineState) (a b : Nat)
    (h : ¬ s.bufferCount < BUFFER_SIZE) :
    queueOf (pushSample s a b) = queueOf s := by
  rw [pushSample_of_full s a b h]
  exact queueOf_congr s _ rfl rfl rfl rfl

theorem obsEq_pushSample (s t : PipelineState) (a b : Nat) (h : ObsEq s t)
    (hs : BufInv s) (ht : BufInv t) :
    ObsEq (pushSample s a b) (pushSample t a b) := by
  obtain ⟨e1, e2, e3, e4, e5, e6, e7, e8⟩ := h
  refine ⟨?_, ?_, ?_, ?_, ?_, ?_, ?_, ?_⟩
  · rw [pushSample_seqNumber, pushSample_seqNumber, e1]
  · rw [pushSample_writeIndex, pushSample_writeIndex, e2, e4]
  · rw [pushSample_readIndex, pushSample_readIndex, e3]
  · rw [pushSample_bufferCount, pushSample_bufferCount, e4]
  · rw [pushSample_total, pushSample_total, e5]
  · rw [pushSample_streaming, pushSample_streaming, e6]
  · rw [pushSample_sensorConfigured, pushSample_sensorConfigured, e7]
  · by_cases hlt : s.bufferCount < BUFFER_SIZE
    · rw [queueOf_pushSample s a b hs hlt,
        queueOf_pushSample t a b ht (e4 ▸ hlt), e8]
    · rw [queueOf_pushSample_full s a b hlt,
        queueOf_pushSample_full t a b (e4 ▸ hlt), e8]

theorem obsEq_foldl_push (samples : List (Nat × Nat)) (s t : PipelineState)
    (h : ObsEq s t) (hs : BufInv s) (ht : BufInv t) :
    ObsEq (samples.foldl (fun u p => pushSample u p.1 p.2) s)
      (samples.foldl (fun u p => pushSample u p.1 p.2) t) := by
  induction samples generalizing s t with
  | nil => exact h
  | cons p rest ih =>
    rw [List.foldl_cons, List.foldl_cons]
    exact ih (pushSample s p.1 p.2) (pushSample t p.1 p.2)
      (obsEq_pushSample s t p.1 p.2 h hs ht)
      (pushSample_inv s p.1 p.2 hs) (pushSample_inv t p.1 p.2 ht)

theorem obsEq_pollSensor (s t : PipelineState) (samples : List (Nat × Nat))
    (h : ObsEq s t) (hs : BufInv s) (ht : BufInv t) :
    ObsEq (pollSensor s samples).1 (pollSensor t samples).1 := by
  unfold pollSensor
  rw [h.2.2.2.2.2.1]
  split
  · exact h
  · exact obsEq_foldl_push samples s t h hs ht

theorem handleCommand_other (dbg : Nat) (s : PipelineState) (now : Nat)
    (c : Char) (hnot : ¬ (c = 'S' ∧ s.streaming = false)) (hp : c ≠ 'P') :
    handleCommand dbg s now c = (s, [], false) := by
  unfold handleCommand
  rw [if_neg hnot, if_neg hp]

theorem obsEq_handleCommand (dbg : Nat) (s t : PipelineState) (now : Nat)
    (c : Char) (h : ObsEq s t) :
    (handleCommand dbg s now c).2 = (handleCommand dbg t now c).2 ∧
      ObsEq (handleCommand dbg s now c).1 (handleCommand dbg t now c).1 := by
  obtain ⟨e1, e2, e3, e4, e5, e6, e7, e8⟩ := h
  obtain ⟨f1, f2, f3, f4, f5, f6, f7⟩ := handleCommand_fields dbg s now c
  obtain ⟨g1, g2, g3, g4, g5, g6, g7⟩ := handleCommand_fields dbg t now c
  have hq : queueOf (handleCommand dbg s now c).1
      = queueOf (handleCommand dbg t now c).1 := by
    rw [queueOf_congr s _ f1 f2 f4 f5, queueOf_congr t _ g1 g2 g4 g5, e8]
  have hstreaming : (handleCommand dbg s now c).1.streaming
      = (handleCommand dbg t now c).1.streaming := by
    by_cases hp : c = 'P'
    · subst hp
      rw [handleCommand_P dbg s now, handleCommand_P dbg t now]
    · by_cases hS : c = 'S' ∧ s.streaming = false
      · obtain ⟨hceq, hstr⟩ := hS
        subst hceq
        rw [handleCommand_S dbg s now hstr,
          handleCommand_S dbg t now (e6 ▸ hstr)]
      · rw [handleCommand_other dbg s now c hS hp,
          handleCommand_other dbg t now c
            (fun hcontra => hS ⟨hcontra.1, by rw [e6]; exact hcontra.2⟩) hp]
        exact e6
  have hcfg : (handleCommand dbg s now c).1.sensorConfigured
      = (handleCommand dbg t now c).1.sensorConfigured := by
    by_cases hp : c = 'P'
    · subst hp
      rw [handleCommand_P dbg s now, handleCommand_P dbg t now]
      exact e7
    · by_cases hS : c = 'S' ∧ s.streaming = false
      · obtain ⟨hceq, hstr⟩ := hS
        subst hceq
        rw [handleCommand_S dbg s now hstr,
          handleCommand_S dbg t now (e6 ▸ hstr)]
        by_cases hc2 : s.sensorConfigured = false
        · rw [if_pos hc2, if_pos (e7 ▸ hc2)]
          rfl
        · rw [if_neg hc2, if_neg (e7 ▸ hc2)]
          exact e7
      · rw [handleCommand_other dbg s now c hS hp,
          handleCommand_other dbg t now c
            (fun hcontra => hS ⟨hcontra.1, by rw [e6]; exact hcontra.2⟩) hp]
        exact e7
  have hevents : (handleCommand dbg s now c).2
      = (handleCommand dbg t now c).2 := by
    by_cases hp : c = 'P'
    · subst hp
      rw [handleCommand_P dbg s now, handleCommand_P dbg t now]
      have hsum : printStreamingSummary { s with streaming := false }
          = printStreamingSummary { t with streaming := false } := by
        show (if s.totalSamplesDuringStream = 0 then []
            else [Event.summary s.totalSamplesDuringStream s.seqNumber])
          = (if t.totalSamplesDuringStream = 0 then []
            else [Event.summary t.totalSamplesDuringStream t.seqNumber])
        rw [e5, e1]
      show (debugPrint dbg DEBUG_INFO ++
          printStreamingSummary { s with streaming := false }, true)
        = (debugPrint dbg DEBUG_INFO ++
          printStreamingSummary { t with streaming := false }, true)
      rw [hsum]
    · by_cases hS : c = 'S' ∧ s.streaming = false
      · obtain ⟨hceq, hstr⟩ := hS
        subst hceq
        rw [handleCommand_S dbg s now hstr,
          handleCommand_S dbg t now (e6 ▸ hstr)]
        by_cases hc2 : s.sensorConfigured = false
        · rw [if_pos hc2, if_pos (e7 ▸ hc2)]
          rfl
        · rw [if_neg hc2, if_neg (e7 ▸ hc2)]
      · rw [handleCommand_other dbg s now c hS hp,
          handleCommand_other dbg t now c
            (fun hcontra => hS ⟨hcontra.1, by rw [e6]; exact hcontra.2⟩) hp]
  exact ⟨hevents,
    f6.trans (e1.trans g6.symm), f3.trans (e2.trans g3.symm),
    f4.trans (e3.trans g4.symm), f5.trans (e4.trans g5.symm),
    f7.trans (e5.trans g7.symm), hstreaming, hcfg, hq⟩

theorem queueOf_transmit_state (s : PipelineState) (hinv : BufInv s)
    (h : CHUNK_SIZE ≤ s.bufferCount) (x : Nat) :
    queueOf { s with seqNumber := x,
                     readIndex := (s.readIndex + CHUNK_SIZE) % BUFFER_SIZE,
                     bufferCount := s.bufferCount - CHUNK_SIZE }
      = (queueOf s).drop CHUNK_SIZE := by
  have h2 := queueOf_popN CHUNK_SIZE s hinv h
  rw [popN_success CHUNK_SIZE s hinv h] at h2
  rw [← h2]
  exact queueOf_congr _ _ rfl rfl rfl rfl

theorem obsEq_transmitChunk (s t : PipelineState) (h : ObsEq s t)
    (hs : BufInv s) (ht : BufInv t) :
    (transmitChunk s).1 = (transmitChunk t).1 ∧
      (transmitChunk s).2.2 = (transmitChunk t).2.2 ∧
      ObsEq (transmitChunk s).2.1 (transmitChunk t).2.1 := by
  obtain ⟨e1, e2, e3, e4, e5, e6, e7, e8⟩ := h
  by_cases hc : s.bufferCount < CHUNK_SIZE
  · rw [transmitChunk_fail s hc, transmitChunk_fail t (e4 ▸ hc)]
    exact ⟨rfl, rfl, ⟨e1, e2, e3, e4, e5, e6, e7, e8⟩⟩
  · have hq1 := queueOf_transmit_state s hs (by omega) ((s.seqNumber + 1) % 256)
    have hq2 := queueOf_transmit_state t ht (by rw [← e4]; omega)
      ((t.seqNumber + 1) % 256)
    rw [transmitChunk_success s hs (by omega),
      transmitChunk_success t ht (by rw [← e4]; omega)]
    refine ⟨rfl, by rw [e1, e8], ?_⟩
    exact ⟨by rw [e1], by exact e2, by rw [e3], by rw [e4], e5, e6, e7,
      hq1.trans (by rw [e8, ← hq2])⟩

theorem sysStep_inv (dbg : Nat) (s : PipelineState) (op : SysOp)
    (h : BufInv s) : BufInv (sysStep dbg s op).1 := by
  cases op with
  | cmd c now =>
    obtain ⟨e1, e2, e3, e4, e5, e6, e7⟩ := handleCommand_fields dbg s now c
    exact bufInv_congr _ _ e3 e4 e5 h
  | poll samples => exact pollSensor_inv s samples h
  | transmit => exact transmitChunk_inv s h

theorem obsEq_sysStep (dbg : Nat) (s t : PipelineState) (op : SysOp)
    (h : ObsEq s t) (hs : BufInv s) (ht : BufInv t) :
    (sysStep dbg s op).2 = (sysStep dbg t op).2 ∧
      ObsEq (sysStep dbg s op).1 (sysStep dbg t op).1 := by
  cases op with
  | cmd c now =>
    have hcmd := obsEq_handleCommand dbg s t now c h
    refine ⟨?_, hcmd.2⟩
    show (([] : List (List (List Nat))), (handleCommand dbg s now c).2.1)
      = (([] : List (List (List Nat))), (handleCommand dbg t now c).2.1)
    rw [hcmd.1]
  | poll samples =>
    exact ⟨rfl, obsEq_pollSensor s t samples h hs ht⟩
  | transmit =>
    have htc := obsEq_transmitChunk s t h hs ht
    refine ⟨?_, htc.2.2⟩
    show ((if (transmitChunk s).1 = true then [(transmitChunk s).2.2]
        else []), ([] : List Event))
      = ((if (transmitChunk t).1 = true then [(transmitChunk t).2.2]
        else []), ([] : List Event))
    rw [htc.1, htc.2.1]

theorem runSys_obsEq (dbg : Nat) (ops : List SysOp) (s t : PipelineState)
    (h : ObsEq s t) (hs : BufInv s) (ht : BufInv t) :
    (runSys dbg s ops).2 = (runSys dbg t ops).2 ∧
      ObsEq (runSys dbg s ops).1 (runSys dbg t ops).1 := by
  induction ops generalizing s t with
  | nil => exact ⟨rfl, h⟩
  | cons op rest ih =>
    have hstep := obsEq_sysStep dbg s t op h hs ht
    have ih2 := ih (sysStep dbg s op).1 (sysStep dbg t op).1 hstep.2
      (sysStep_inv dbg s op hs) (sysStep_inv dbg t op ht)
    show ((sysStep dbg s op).2.1 ++ (runSys dbg (sysStep dbg s op).1 rest).2.1,
        (sysStep dbg s op).2.2 ++ (runSys dbg (sysStep dbg s op).1 rest).2.2)
      = ((sysStep dbg t op).2.1 ++ (runSys dbg (sysStep dbg t op).1 rest).2.1,
        (sysStep dbg t op).2.2 ++ (runSys dbg (sysStep dbg t op).1 rest).2.2)
      ∧ ObsEq (runSys dbg (sysStep dbg s op).1 rest).1
          (runSys dbg (sysStep dbg t op).1 rest).1
    refine ⟨?_, ih2.2⟩
    rw [hstep.1, ih2.1]


theorem shutdownSensor_sensorConfigured (dbg : Nat) (s : PipelineState) :
    (shutdownSensor dbg s).1.sensorConfigured = false := by
  unfold shutdownSensor
  split
  · rfl
  · rename_i hcond
    show s.sensorConfigured = false
    simpa using hcond

theorem queueOf_zero_count (s : PipelineState) (h : s.bufferCount = 0) :
    queueOf s = [] := by
  unfold queueOf
  rw [h]
  rfl

/-- C9: the connection-accept reset (`resetStreamingState`, run on every
new connection) forces Idle, zeroes the sequence counter, the write index,
the read index, the buffer count and the session sample counter, and
empties the abstract buffer content — any partially filled remainder from
a previous connection is discarded; consequently two connection starts
(each reached through the disconnect cleanup of an arbitrary previous
state, or a fresh boot) produce identical frame groups and identical
events under every subsequent operation trace: no pipeline state
observable through subsequent operations leaks across connections. -/
theorem c9_connection_reset (s : PipelineState) :
    (resetStreamingState s).streaming = false ∧
    (resetStreamingState s).seqNumber = 0 ∧
    (resetStreamingState s).writeIndex = 0 ∧
    (resetStreamingState s).readIndex = 0 ∧
    (resetStreamingState s).bufferCount = 0 ∧
    (resetStreamingState s).totalSamplesDuringStream = 0 ∧
    queueOf (resetStreamingState s) = [] ∧
    ∀ dbg ops,
      (runSys dbg (resetStreamingState (handleDisconnect dbg s).1) ops).2
        = (runSys dbg (resetStreamingState initState) ops).2 := by
  refine ⟨rfl, rfl, rfl, rfl, rfl, rfl, queueOf_zero_count _ rfl, ?_⟩
  intro dbg ops
  refine (runSys_obsEq dbg ops _ _ ?_ (resetStreamingState_bufInv _)
    (resetStreamingState_bufInv _)).1
  refine ⟨rfl, rfl, rfl, rfl, rfl, rfl, ?_, ?_⟩
  · show (handleDisconnect dbg s).1.sensorConfigured
      = initState.sensorConfigured
    exact shutdownSensor_sensorConfigured dbg (resetStreamingState s)
  · rw [queueOf_zero_count _ rfl, queueOf_zero_count _ rfl]


end PPG
